import Mathlib

/-!
# Verification of the Geometric Resonance audio core

Shallow embedding, over the real numbers, of the audio feature-extraction and
motion-smoothing pipeline of the repository (js/audioAnalyzer.js and
js/motionCoordinator.js), together with theorems settling the frozen claims
about it.

Conventions of the embedding:
* JavaScript doubles are modelled as real numbers (`ℝ`); the one field that the
  source genuinely holds as `NaN` (`rootNote`, set to `NaN` in the constructor)
  is modelled as `Option ℝ` with `none` playing the role of `NaN`.
* `Float32Array(64)` fields are modelled as functions `Fin 64 → ℝ`; the FFT
  smoothing array (whose length follows the input) as `ℕ → ℝ` plus a length.
* The bounded history arrays are Lean lists (push at the end, shift from the
  front), exactly as in the source.
* Loop accumulators are finite sums over the same index ranges the loops use.
-/

namespace GR

noncomputable section

open scoped Classical

/-! ## js/utils.js -/

/-- `clamp` from js/utils.js: `(v, a, b) => Math.min(b, Math.max(a, v))`. -/
def clamp (v a b : ℝ) : ℝ := min b (max a v)

/-- `lerp` from js/utils.js: `(a, b, t) => a + (b - a) * t`. -/
def lerp (a b t : ℝ) : ℝ := a + (b - a) * t

/-! ## AudioAnalyzer._computeLogBandEdges (js/audioAnalyzer.js lines 69-78) -/

/-- The value the loop body of `_computeLogBandEdges` stores at index `i`:
`Math.pow(10, logMin + (i / numBands) * (logMax - logMin))` with
`logMin = Math.log10(minHz)`, `logMax = Math.log10(maxHz)`. -/
def computeLogBandEdges (numBands : ℕ) (minHz maxHz : ℝ) : ℕ → ℝ :=
  fun i =>
    (10 : ℝ) ^ (Real.logb 10 minHz +
      ((i : ℝ) / (numBands : ℝ)) * (Real.logb 10 maxHz - Real.logb 10 minHz))

/-- `_computeLogBandEdges` returns the array `edges` of length `numBands + 1`,
filled by the loop `for (let i = 0; i <= numBands; i++)`. -/
def computeLogBandEdgesList (numBands : ℕ) (minHz maxHz : ℝ) : List ℝ :=
  (List.range (numBands + 1)).map (computeLogBandEdges numBands minHz maxHz)

/-! ## AudioAnalyzer state (constructor, js/audioAnalyzer.js lines 8-67)

`Float32Array(64)` fields are `Fin 64 → ℝ`; `_fftSmooth` (allocated lazily to
the input length) is a function `ℕ → ℝ` plus the current length `fftLen`
(`fftLen = 0` models the initial `null`).  `rootNote` is `Option ℝ` with
`none` modelling the constructor's `NaN`.  The unused stereo arguments
`freqL`/`freqR` of `analyze` and the dead locals (`sumEnergy`, `_noteBins`)
are omitted. -/

structure AnalyzerState where
  bandValues : Fin 64 → ℝ
  bandPeaks : Fin 64 → ℝ
  bandEdges : ℕ → ℝ
  prevBandValues : Fin 64 → ℝ
  onsetDecay : Fin 64 → ℝ
  fftSmooth : ℕ → ℝ
  fftLen : ℕ
  beatInterval : ℝ
  lastBeatTime : ℝ
  beatGate : ℝ
  bpmSmooth : ℝ
  beatCount : ℕ
  barCount : ℕ
  spectralCentroid : ℝ
  spectralFlux : ℝ
  energy : ℝ
  spectralSpread : ℝ
  spectralRolloff : ℝ
  spectralFlatness : ℝ
  onsetKick : ℝ
  onsetSnare : ℝ
  onsetHihat : ℝ
  onsetGlobal : ℝ
  fluxHist : List ℝ
  fluxKickHist : List ℝ
  fluxSnareHist : List ℝ
  fluxHihatHist : List ℝ
  lastOnsetT : ℝ
  lastKickT : ℝ
  lastSnareT : ℝ
  lastHihatT : ℝ
  rms : ℝ
  rmsSmooth : ℝ
  rmsPeak : ℝ
  sampleRate : ℝ
  fftSize : ℝ
  rootNote : Option ℝ
  noteName : String
  chroma : Fin 12 → ℝ
  smoothSubBass : ℝ
  smoothBass : ℝ
  smoothLowMid : ℝ
  smoothMid : ℝ
  smoothHighMid : ℝ
  smoothHigh : ℝ
  smoothBrilliance : ℝ
  tMs : ℝ
  transientSharpness : ℝ
  harmonicRatio : ℝ

/-- The state built by `new AudioAnalyzer()`. -/
def analyzerInit : AnalyzerState where
  bandValues := fun _ => 0
  bandPeaks := fun _ => 0
  bandEdges := computeLogBandEdges 64 20 20000
  prevBandValues := fun _ => 0
  onsetDecay := fun _ => 0
  fftSmooth := fun _ => 0
  fftLen := 0
  beatInterval := 500
  lastBeatTime := 0
  beatGate := 0
  bpmSmooth := 120
  beatCount := 0
  barCount := 0
  spectralCentroid := 0.5
  spectralFlux := 0
  energy := 0
  spectralSpread := 0
  spectralRolloff := 0
  spectralFlatness := 0
  onsetKick := 0
  onsetSnare := 0
  onsetHihat := 0
  onsetGlobal := 0
  fluxHist := []
  fluxKickHist := []
  fluxSnareHist := []
  fluxHihatHist := []
  lastOnsetT := 0
  lastKickT := 0
  lastSnareT := 0
  lastHihatT := 0
  rms := 0
  rmsSmooth := 0.06
  rmsPeak := 0
  sampleRate := 48000
  fftSize := 8192
  rootNote := none
  noteName := "--"
  chroma := fun _ => 0
  smoothSubBass := 0
  smoothBass := 0
  smoothLowMid := 0
  smoothMid := 0
  smoothHighMid := 0
  smoothHigh := 0
  smoothBrilliance := 0
  tMs := 0
  transientSharpness := 0
  harmonicRatio := 0

/-- Inputs of one `analyze(freqData, timeData, dt, freqL, freqR, smoothingAlpha)`
call (the unused `freqL`, `freqR` omitted). -/
structure AnalyzeInput where
  freqData : List ℝ
  timeData : List ℝ
  dt : ℝ
  smoothingAlpha : ℝ

/-! ## AudioAnalyzer helpers (js/audioAnalyzer.js lines 86-110) -/

/-- `_median`: sort ascending, then
`lerp(a[Math.floor(mid)], a[Math.ceil(mid)], mid - Math.floor(mid))` with
`mid = (a.length - 1) * 0.5`.  For length `n ≥ 1`, `⌊mid⌋ = (n-1)/2`,
`⌈mid⌉ = n/2` (natural division) and the fraction is `((n-1) % 2) / 2`. -/
def jsSorted (l : List ℝ) : List ℝ := l.mergeSort (fun x y => decide (x ≤ y))

def jsMedian (l : List ℝ) : ℝ :=
  if l.length = 0 then 0
  else lerp ((jsSorted l).getD ((l.length - 1) / 2) 0)
            ((jsSorted l).getD (l.length / 2) 0)
            ((((l.length - 1) % 2 : ℕ) : ℝ) / 2)

/-- `_mad(arr, med)`: median of absolute deviations plus `1e-6`. -/
def jsMad (l : List ℝ) (med : ℝ) : ℝ :=
  jsMedian (l.map fun v => |v - med|) + 1e-6

/-- `_adaptiveThreshold(history, k) = median + k * mad`. -/
def adaptiveThreshold (history : List ℝ) (k : ℝ) : ℝ :=
  jsMedian history + k * jsMad history (jsMedian history)

/-- The `pushHist` closure of `analyze` (lines 186-189): push, then shift the
oldest entry when over capacity. -/
def pushHist (l : List ℝ) (v : ℝ) (maxLen : ℕ) : List ℝ :=
  let a := l ++ [v]
  if maxLen < a.length then a.tail else a

/-- `_noteName(pc)` (lines 108-110): the pitch-class name array, indexed by
`(pc | 0) % 12` (the lookup always lands inside the array). -/
def jsNoteName (pc : ℕ) : String :=
  match pc % 12 with
  | 0 => "C"
  | 1 => "C#"
  | 2 => "D"
  | 3 => "D#"
  | 4 => "E"
  | 5 => "F"
  | 6 => "F#"
  | 7 => "G"
  | 8 => "G#"
  | 9 => "A"
  | 10 => "A#"
  | _ => "B"

/-! ## One `analyze` call, staged (js/audioAnalyzer.js lines 112-330)

Each local of the source is a definition of the pre-call state `s` and the
input `inp`, named after the source local it embeds. -/

/-- `const N = freqData.length`. -/
def aN (inp : AnalyzeInput) : ℕ := inp.freqData.length

/-- `const now = this._tMs` after `this._tMs += dt * 1000`. -/
def aNow (s : AnalyzerState) (inp : AnalyzeInput) : ℝ := s.tMs + inp.dt * 1000

/-- `const baseAlpha = clamp(smoothingAlpha, 0.05, 0.4)`. -/
def baseAlpha (inp : AnalyzeInput) : ℝ := clamp inp.smoothingAlpha 0.05 0.4

/-- `const hzPerBin = this.sampleRate / this.fftSize`. -/
def hzPerBin (s : AnalyzerState) : ℝ := s.sampleRate / s.fftSize

/-- `_ensureFftSmooth(n)`: reallocate (all zeros) when the length changed. -/
def ensuredFft (s : AnalyzerState) (n : ℕ) : ℕ → ℝ :=
  if s.fftLen = n then s.fftSmooth else fun _ => 0

/-- The bin-smoothing loop (lines 121-127): per bin, perceptual curve
`Math.pow(freqData[i] / 255, 1.2)`, adaptive alpha (fast attack capped at
`0.7`, base release), exponential smoothing. -/
def newFft (s : AnalyzerState) (inp : AnalyzeInput) : ℕ → ℝ := fun i =>
  if i < aN inp then
    let prev := ensuredFft s (aN inp) i
    let linear := (inp.freqData.getD i 0 / 255) ^ (1.2 : ℝ)
    let a := if prev < linear then min (baseAlpha inp * 2.5) 0.7 else baseAlpha inp
    lerp prev linear a
  else ensuredFft s (aN inp) i

/-- `startBin = Math.max(1, Math.floor(lowHz / hzPerBin))`. -/
def bandStartBin (s : AnalyzerState) (b : ℕ) : ℤ :=
  max 1 ⌊s.bandEdges b / hzPerBin s⌋

/-- `endBin = Math.min(N - 1, Math.ceil(highHz / hzPerBin))`. -/
def bandEndBin (s : AnalyzerState) (n : ℕ) (b : ℕ) : ℤ :=
  min ((n : ℤ) - 1) ⌈s.bandEdges (b + 1) / hzPerBin s⌉

/-- The high-frequency weighting `1.0 + (i / N) * 0.5` of the band loop. -/
def binWeight (n : ℕ) (i : ℤ) : ℝ := 1 + ((i : ℝ) / (n : ℝ)) * 0.5

/-- The bin range a band aggregates over. -/
def bandBins (s : AnalyzerState) (n : ℕ) (b : ℕ) : Finset ℤ :=
  Finset.Icc (bandStartBin s b) (bandEndBin s n b)

/-- `val` of the band loop (lines 139-145): weighted average of the smoothed
bins in the band's range, `0` on an empty range (the `w > 0` guard, with `w`
the accumulated weight sum). -/
def aVal (s : AnalyzerState) (inp : AnalyzeInput) (b : ℕ) : ℝ :=
  if 0 < ∑ i in bandBins s (aN inp) b, binWeight (aN inp) i then
    (∑ i in bandBins s (aN inp) b, newFft s inp i.toNat * binWeight (aN inp) i) /
      (∑ i in bandBins s (aN inp) b, binWeight (aN inp) i)
  else 0

/-- `sumCentroid = Σ (b / this.bands) * val`. -/
def aSumCentroid (s : AnalyzerState) (inp : AnalyzeInput) : ℝ :=
  ∑ b : Fin 64, ((b : ℝ) / 64) * aVal s inp b

/-- `sumCentroidWeight = Σ val`. -/
def aSumCentroidWeight (s : AnalyzerState) (inp : AnalyzeInput) : ℝ :=
  ∑ b : Fin 64, aVal s inp b

/-- Line 158: centroid with the `1e-6` guard, fallback `0.5`. -/
def aSpectralCentroid (s : AnalyzerState) (inp : AnalyzeInput) : ℝ :=
  if 1e-6 < aSumCentroidWeight s inp
  then aSumCentroid s inp / aSumCentroidWeight s inp else 0.5

/-- `arithmeticMean` after the division by `this.bands` (line 159). -/
def aArithmeticMean (s : AnalyzerState) (inp : AnalyzeInput) : ℝ :=
  (∑ b : Fin 64, aVal s inp b) / 64

/-- `geoMean = exp(Σ log-term / 64)` (lines 155, 160). -/
def aGeoMean (s : AnalyzerState) (inp : AnalyzeInput) : ℝ :=
  Real.exp ((∑ b : Fin 64,
    (if 0.001 < aVal s inp b then Real.log (aVal s inp b + 0.001)
     else Real.log 0.001)) / 64)

/-- Line 161: flatness with the `0.001` guard, fallback `0`. -/
def aSpectralFlatness (s : AnalyzerState) (inp : AnalyzeInput) : ℝ :=
  if 0.001 < aArithmeticMean s inp then aGeoMean s inp / aArithmeticMean s inp else 0

/-- `const dv = bandValues[b] - prevBandValues[b]; const pos = Math.max(0, dv)`. -/
def aPos (s : AnalyzerState) (inp : AnalyzeInput) (b : Fin 64) : ℝ :=
  max 0 (aVal s inp b - s.prevBandValues b)

/-- `rectified = pos * pos`. -/
def aRect (s : AnalyzerState) (inp : AnalyzeInput) (b : Fin 64) : ℝ :=
  aPos s inp b * aPos s inp b

/-- `const hz = (bandEdges[b] + bandEdges[b+1]) / 2`. -/
def aCenterHz (s : AnalyzerState) (b : ℕ) : ℝ :=
  (s.bandEdges b + s.bandEdges (b + 1)) / 2

/-- The frequency-dispatch `if/else-if` chain of the flux loop
(lines 173-176), returning this band's contribution to the
(kick, snare, hihat) accumulators.  Being an `else-if` chain, each band
feeds **at most one** accumulator. -/
def fluxDispatch (hz rectified : ℝ) : ℝ × ℝ × ℝ :=
  if hz < 150 then (rectified * 2.0, 0, 0)
  else if 150 ≤ hz ∧ hz < 400 then (rectified * 0.5, 0, 0)
  else if 200 ≤ hz ∧ hz < 2000 then (0, rectified, 0)
  else if 4000 ≤ hz then (0, 0, rectified * 1.5)
  else (0, 0, 0)

/-- `flux = Math.sqrt(Σ rectified)` (lines 169, 181). -/
def aFlux (s : AnalyzerState) (inp : AnalyzeInput) : ℝ :=
  Real.sqrt (∑ b : Fin 64, aRect s inp b)

/-- `fluxKick = Math.sqrt(...)` (lines 173-174, 182). -/
def aFluxKick (s : AnalyzerState) (inp : AnalyzeInput) : ℝ :=
  Real.sqrt (∑ b : Fin 64, (fluxDispatch (aCenterHz s b) (aRect s inp b)).1)

/-- `fluxSnare = Math.sqrt(...)` (lines 175, 183). -/
def aFluxSnare (s : AnalyzerState) (inp : AnalyzeInput) : ℝ :=
  Real.sqrt (∑ b : Fin 64, (fluxDispatch (aCenterHz s b) (aRect s inp b)).2.1)

/-- `fluxHihat = Math.sqrt(...)` (lines 176, 184). -/
def aFluxHihat (s : AnalyzerState) (inp : AnalyzeInput) : ℝ :=
  Real.sqrt (∑ b : Fin 64, (fluxDispatch (aCenterHz s b) (aRect s inp b)).2.2)

/-- Histories after the four `pushHist` calls (lines 190-193). -/
def aFluxHist (s : AnalyzerState) (inp : AnalyzeInput) : List ℝ :=
  pushHist s.fluxHist (aFlux s inp) 60

def aFluxKickHist (s : AnalyzerState) (inp : AnalyzeInput) : List ℝ :=
  pushHist s.fluxKickHist (aFluxKick s inp) 50

def aFluxSnareHist (s : AnalyzerState) (inp : AnalyzeInput) : List ℝ :=
  pushHist s.fluxSnareHist (aFluxSnare s inp) 50

def aFluxHihatHist (s : AnalyzerState) (inp : AnalyzeInput) : List ℝ :=
  pushHist s.fluxHihatHist (aFluxHihat s inp) 40

/-- The firing condition of `trigOnset`: `v > thr && (now - last) > cooldown`. -/
def trigCond (v thr now lastT cooldown : ℝ) : Prop :=
  thr < v ∧ cooldown < now - lastT

/-- The fired strength: `clamp((v / thr - 1.0) * sensitivity, 0.5, 1.5)`. -/
def trigStrength (v thr sens : ℝ) : ℝ :=
  clamp ((v / thr - 1.0) * sens) 0.5 1.5

/-- Adaptive thresholds of the four channels (lines 205-208). -/
def aThrGlobal (s : AnalyzerState) (inp : AnalyzeInput) : ℝ :=
  adaptiveThreshold (aFluxHist s inp) 2.2

def aThrKick (s : AnalyzerState) (inp : AnalyzeInput) : ℝ :=
  adaptiveThreshold (aFluxKickHist s inp) 2.0

def aThrSnare (s : AnalyzerState) (inp : AnalyzeInput) : ℝ :=
  adaptiveThreshold (aFluxSnareHist s inp) 2.2

def aThrHihat (s : AnalyzerState) (inp : AnalyzeInput) : ℝ :=
  adaptiveThreshold (aFluxHihatHist s inp) 2.5

/-- Whether the global / kick / snare / hihat onset fires this call. -/
def aGlobalFires (s : AnalyzerState) (inp : AnalyzeInput) : Prop :=
  trigCond (aFlux s inp) (aThrGlobal s inp) (aNow s inp) s.lastOnsetT 80

def aKickFires (s : AnalyzerState) (inp : AnalyzeInput) : Prop :=
  trigCond (aFluxKick s inp) (aThrKick s inp) (aNow s inp) s.lastKickT 150

def aSnareFires (s : AnalyzerState) (inp : AnalyzeInput) : Prop :=
  trigCond (aFluxSnare s inp) (aThrSnare s inp) (aNow s inp) s.lastSnareT 100

def aHihatFires (s : AnalyzerState) (inp : AnalyzeInput) : Prop :=
  trigCond (aFluxHihat s inp) (aThrHihat s inp) (aNow s inp) s.lastHihatT 50

/-- `gOn` / `kOn` / `sOn` / `hOn` (lines 205-208; sensitivities 2.4 default,
3.0 for the kick). -/
def aGOn (s : AnalyzerState) (inp : AnalyzeInput) : ℝ :=
  if aGlobalFires s inp then trigStrength (aFlux s inp) (aThrGlobal s inp) 2.4 else 0

def aKOn (s : AnalyzerState) (inp : AnalyzeInput) : ℝ :=
  if aKickFires s inp then trigStrength (aFluxKick s inp) (aThrKick s inp) 3.0 else 0

def aSOn (s : AnalyzerState) (inp : AnalyzeInput) : ℝ :=
  if aSnareFires s inp then trigStrength (aFluxSnare s inp) (aThrSnare s inp) 2.4 else 0

def aHOn (s : AnalyzerState) (inp : AnalyzeInput) : ℝ :=
  if aHihatFires s inp then trigStrength (aFluxHihat s inp) (aThrHihat s inp) 2.4 else 0

/-- The decaying onset envelopes (lines 211-214): new value is the max of the
fired strength and the previous value times the per-channel decay factor. -/
def aOnsetGlobal (s : AnalyzerState) (inp : AnalyzeInput) : ℝ :=
  max (aGOn s inp) (s.onsetGlobal * 0.88)

def aOnsetKick (s : AnalyzerState) (inp : AnalyzeInput) : ℝ :=
  max (aKOn s inp) (s.onsetKick * 0.78)

def aOnsetSnare (s : AnalyzerState) (inp : AnalyzeInput) : ℝ :=
  max (aSOn s inp) (s.onsetSnare * 0.82)

def aOnsetHihat (s : AnalyzerState) (inp : AnalyzeInput) : ℝ :=
  max (aHOn s inp) (s.onsetHihat * 0.90)

/-- `this.spectralFlux = clamp(flux * 0.8, 0, 2.5)` (line 216). -/
def aSpectralFluxOut (s : AnalyzerState) (inp : AnalyzeInput) : ℝ :=
  clamp (aFlux s inp * 0.8) 0 2.5

/-- `transientSharpness` (lines 219-222), from the updated onset values. -/
def aTransient (s : AnalyzerState) (inp : AnalyzeInput) : ℝ :=
  clamp (aOnsetKick s inp * 1.2 + aOnsetSnare s inp * 0.8 +
         aOnsetHihat s inp * 0.5 + aOnsetGlobal s inp * 0.3) 0 2.0

/-- RMS from the time-domain buffer (lines 225-235); unchanged when the
buffer is empty. -/
def aRms (s : AnalyzerState) (inp : AnalyzeInput) : ℝ :=
  if inp.timeData.length ≠ 0 then
    Real.sqrt ((inp.timeData.map fun x => ((x - 128) / 128) * ((x - 128) / 128)).sum
      / inp.timeData.length)
  else s.rms

/-- The zero-crossing count of the same loop (lines 230-233). -/
def aZeroCross (inp : AnalyzeInput) : ℕ :=
  ((Finset.Ico 1 inp.timeData.length).filter fun i =>
    let sample := (inp.timeData.getD i 0 - 128) / 128
    let prev := (inp.timeData.getD (i - 1) 0 - 128) / 128
    (0 ≤ sample ∧ prev < 0) ∨ (sample < 0 ∧ 0 ≤ prev)).card

/-- `harmonicRatio = clamp(zeroCrossings / len * 50, 0, 1)` (line 236). -/
def aHarmonicRatio (s : AnalyzerState) (inp : AnalyzeInput) : ℝ :=
  if inp.timeData.length ≠ 0 then
    clamp ((aZeroCross inp : ℝ) / inp.timeData.length * 50) 0 1
  else s.harmonicRatio

/-- RMS envelope follower (lines 240-245), attack 5 ms / release 150 ms with
`1 - exp(-dt/τ)` discretisation. -/
def aRmsSmooth (s : AnalyzerState) (inp : AnalyzeInput) : ℝ :=
  s.rmsSmooth + (aRms s inp - s.rmsSmooth) *
    (if s.rmsSmooth < aRms s inp then 1 - Real.exp (-inp.dt / 0.005)
     else 1 - Real.exp (-inp.dt / 0.15))

def aRmsPeak (s : AnalyzerState) (inp : AnalyzeInput) : ℝ :=
  max (s.rmsPeak * 0.9995) (aRmsSmooth s inp)

/-- `computeBandEnergy(startBand, endBand)` (lines 248-252): sum of band
values for `startBand ≤ i ≤ endBand`, `i < 64`, averaged with the nominal
count `endBand - startBand + 1`. -/
def computeBandEnergy (vals : ℕ → ℝ) (startBand endBand : ℕ) : ℝ :=
  (∑ i in Finset.Icc startBand (min endBand 63), vals i) /
    ((endBand : ℝ) - (startBand : ℝ) + 1)

/-- The attack/release envelope `updateEnv` (lines 264-267). -/
def updateEnv (current target attack release : ℝ) : ℝ :=
  current + (target - current) * (if current < target then attack else release)

/-- The four rate coefficients (lines 268-271), `1 - 0.001^(dt·rate)`. -/
def aFastAttack (inp : AnalyzeInput) : ℝ := 1 - (0.001 : ℝ) ^ (inp.dt * 12.0)

def aMedAttack (inp : AnalyzeInput) : ℝ := 1 - (0.001 : ℝ) ^ (inp.dt * 6.0)

def aSlowRelease (inp : AnalyzeInput) : ℝ := 1 - (0.001 : ℝ) ^ (inp.dt * 1.5)

def aMedRelease (inp : AnalyzeInput) : ℝ := 1 - (0.001 : ℝ) ^ (inp.dt * 2.5)

/-- The seven named-band envelopes (lines 255-261, 273-279). -/
def aSmoothSubBass (s : AnalyzerState) (inp : AnalyzeInput) : ℝ :=
  updateEnv s.smoothSubBass (computeBandEnergy (aVal s inp) 0 3)
    (aFastAttack inp) (aSlowRelease inp)

def aSmoothBass (s : AnalyzerState) (inp : AnalyzeInput) : ℝ :=
  updateEnv s.smoothBass (computeBandEnergy (aVal s inp) 4 8)
    (aFastAttack inp) (aSlowRelease inp)

def aSmoothLowMid (s : AnalyzerState) (inp : AnalyzeInput) : ℝ :=
  updateEnv s.smoothLowMid (computeBandEnergy (aVal s inp) 9 16)
    (aMedAttack inp) (aMedRelease inp)

def aSmoothMid (s : AnalyzerState) (inp : AnalyzeInput) : ℝ :=
  updateEnv s.smoothMid (computeBandEnergy (aVal s inp) 17 28)
    (aMedAttack inp) (aMedRelease inp)

def aSmoothHighMid (s : AnalyzerState) (inp : AnalyzeInput) : ℝ :=
  updateEnv s.smoothHighMid (computeBandEnergy (aVal s inp) 29 40)
    (aMedAttack inp) (aMedRelease inp)

def aSmoothHigh (s : AnalyzerState) (inp : AnalyzeInput) : ℝ :=
  updateEnv s.smoothHigh (computeBandEnergy (aVal s inp) 41 52)
    (aFastAttack inp) (aMedRelease inp)

def aSmoothBrilliance (s : AnalyzerState) (inp : AnalyzeInput) : ℝ :=
  updateEnv s.smoothBrilliance (computeBandEnergy (aVal s inp) 53 63)
    (aFastAttack inp) (aMedRelease inp)

/-- Composite `energy` (lines 282-290). -/
def aEnergy (s : AnalyzerState) (inp : AnalyzeInput) : ℝ :=
  clamp (0.25 * aSmoothSubBass s inp + 0.30 * aSmoothBass s inp +
         0.15 * aSmoothLowMid s inp + 0.15 * aSmoothMid s inp +
         0.10 * aSmoothHighMid s inp + 0.05 * aSmoothHigh s inp) 0 1.5

/-- The beat condition (line 294):
`kOn > 0.3 && (now - lastBeatTime) > 180 && beatGate <= 0`. -/
def aIsBeat (s : AnalyzerState) (inp : AnalyzeInput) : Prop :=
  0.3 < aKOn s inp ∧ 180 < aNow s inp - s.lastBeatTime ∧ s.beatGate ≤ 0

/-- `const interval = now - this.lastBeatTime`. -/
def aInterval (s : AnalyzerState) (inp : AnalyzeInput) : ℝ :=
  aNow s inp - s.lastBeatTime

/-- The plausibility guard of line 297. -/
def aIntervalOK (s : AnalyzerState) (inp : AnalyzeInput) : Prop :=
  0 < s.lastBeatTime ∧ 180 < aInterval s inp ∧ aInterval s inp < 2500

/-- `beatInterval` after the call (line 298). -/
def aBeatInterval (s : AnalyzerState) (inp : AnalyzeInput) : ℝ :=
  if aIsBeat s inp ∧ aIntervalOK s inp
  then lerp s.beatInterval (aInterval s inp) 0.25 else s.beatInterval

/-- `bpmSmooth` after the call (line 299); note the source reads the freshly
assigned `this.beatInterval`. -/
def aBpmSmooth (s : AnalyzerState) (inp : AnalyzeInput) : ℝ :=
  if aIsBeat s inp ∧ aIntervalOK s inp
  then lerp s.bpmSmooth (60000 / aBeatInterval s inp) 0.15 else s.bpmSmooth

def aLastBeatTime (s : AnalyzerState) (inp : AnalyzeInput) : ℝ :=
  if aIsBeat s inp then aNow s inp else s.lastBeatTime

/-- `beatCount` increments on every fired beat (line 302). -/
def aBeatCount (s : AnalyzerState) (inp : AnalyzeInput) : ℕ :=
  if aIsBeat s inp then s.beatCount + 1 else s.beatCount

/-- `if (this.beatCount % 4 === 0) this.barCount++` (line 303), with the
already incremented `beatCount`. -/
def aBarCount (s : AnalyzerState) (inp : AnalyzeInput) : ℕ :=
  if aIsBeat s inp then
    (if (s.beatCount + 1) % 4 = 0 then s.barCount + 1 else s.barCount)
  else s.barCount

/-- `beatGate` set to 100 on a beat (line 304), then decayed (line 306). -/
def aBeatGate (s : AnalyzerState) (inp : AnalyzeInput) : ℝ :=
  max 0 ((if aIsBeat s inp then (100 : ℝ) else s.beatGate) - inp.dt * 1000)

/-- JavaScript's `%` (truncated remainder, sign of the dividend). -/
def jsRem (a b : ℤ) : ℤ := Int.tmod a b

/-- `((Math.round(midi) % 12) + 12) % 12` for `midi = 69 + 12*log2(freq/440)`
(lines 314-315). -/
def pitchClassOf (freq : ℝ) : ℤ :=
  jsRem (jsRem (round (69 + 12 * Real.logb 2 (freq / 440))) 12 + 12) 12

/-- The chroma accumulation loop (lines 310-318), over bins
`4 ≤ i < min(400, N)` with `30 < freq < 4000`. -/
def aChroma (s : AnalyzerState) (inp : AnalyzeInput) : Fin 12 → ℝ := fun c =>
  ∑ i in Finset.Ico 4 (min 400 (aN inp)),
    (if 30 < (i : ℝ) * hzPerBin s ∧ (i : ℝ) * hzPerBin s < 4000 ∧
        pitchClassOf ((i : ℝ) * hzPerBin s) = (c : ℕ) then newFft s inp i else 0)

/-- The argmax scan of lines 320-323 (`>` keeps the first maximum; the scan
starts from `maxVal = 0, maxIdx = 0`). -/
def chromaScan (c : Fin 12 → ℝ) : ℝ × ℕ :=
  (List.finRange 12).foldl (fun acc i => if acc.1 < c i then (c i, (i : ℕ)) else acc) (0, 0)

def aMaxChroma (s : AnalyzerState) (inp : AnalyzeInput) : ℝ :=
  (chromaScan (aChroma s inp)).1

def aMaxChromaIdx (s : AnalyzerState) (inp : AnalyzeInput) : ℕ :=
  (chromaScan (aChroma s inp)).2

/-- `rootNote` is (re)assigned only when the dominant chroma exceeds `0.1`
(lines 324-327); otherwise the previous value — `NaN` right after
construction — is retained. -/
def aRootNote (s : AnalyzerState) (inp : AnalyzeInput) : Option ℝ :=
  if 0.1 < aMaxChroma s inp then some ((aMaxChromaIdx s inp : ℕ) : ℝ) else s.rootNote

def aNoteName (s : AnalyzerState) (inp : AnalyzeInput) : String :=
  if 0.1 < aMaxChroma s inp then jsNoteName (aMaxChromaIdx s inp) else s.noteName

/-- The complete state after one `analyze(freqData, timeData, dt, …,
smoothingAlpha)` call. -/
def analyzeState (s : AnalyzerState) (inp : AnalyzeInput) : AnalyzerState :=
  { s with
    tMs := aNow s inp
    fftSmooth := newFft s inp
    fftLen := aN inp
    bandValues := fun b => aVal s inp b
    bandPeaks := fun b => max (s.bandPeaks b * 0.97) (aVal s inp b)
    prevBandValues := fun b => aVal s inp b
    onsetDecay := fun b => max (s.onsetDecay b * 0.82) (clamp (aPos s inp b * 2.8) 0 1)
    spectralCentroid := aSpectralCentroid s inp
    spectralFlatness := aSpectralFlatness s inp
    fluxHist := aFluxHist s inp
    fluxKickHist := aFluxKickHist s inp
    fluxSnareHist := aFluxSnareHist s inp
    fluxHihatHist := aFluxHihatHist s inp
    lastOnsetT := if aGlobalFires s inp then aNow s inp else s.lastOnsetT
    lastKickT := if aKickFires s inp then aNow s inp else s.lastKickT
    lastSnareT := if aSnareFires s inp then aNow s inp else s.lastSnareT
    lastHihatT := if aHihatFires s inp then aNow s inp else s.lastHihatT
    onsetGlobal := aOnsetGlobal s inp
    onsetKick := aOnsetKick s inp
    onsetSnare := aOnsetSnare s inp
    onsetHihat := aOnsetHihat s inp
    spectralFlux := aSpectralFluxOut s inp
    transientSharpness := aTransient s inp
    rms := aRms s inp
    harmonicRatio := aHarmonicRatio s inp
    rmsSmooth := aRmsSmooth s inp
    rmsPeak := aRmsPeak s inp
    smoothSubBass := aSmoothSubBass s inp
    smoothBass := aSmoothBass s inp
    smoothLowMid := aSmoothLowMid s inp
    smoothMid := aSmoothMid s inp
    smoothHighMid := aSmoothHighMid s inp
    smoothHigh := aSmoothHigh s inp
    smoothBrilliance := aSmoothBrilliance s inp
    energy := aEnergy s inp
    beatInterval := aBeatInterval s inp
    bpmSmooth := aBpmSmooth s inp
    lastBeatTime := aLastBeatTime s inp
    beatCount := aBeatCount s inp
    barCount := aBarCount s inp
    beatGate := aBeatGate s inp
    chroma := aChroma s inp
    rootNote := aRootNote s inp
    noteName := aNoteName s inp }

/-- Folding a whole input sequence through `analyze`. -/
def runAnalyzer (s : AnalyzerState) : List AnalyzeInput → AnalyzerState
  | [] => s
  | inp :: rest => runAnalyzer (analyzeState s inp) rest

/-- How many of the calls in the sequence return `isBeat = true`. -/
def firedCount (s : AnalyzerState) : List AnalyzeInput → ℕ
  | [] => 0
  | inp :: rest =>
      (if aIsBeat s inp then 1 else 0) + firedCount (analyzeState s inp) rest

/-! ## AudioAnalyzer.getBPM (js/audioAnalyzer.js lines 340-342)

`getBPM` is the one method whose body branches on `Number.isFinite`, so it is
modelled over a NaN-able domain: `Option ℝ` with `none` for a non-finite
value.  `Math.max`/`Math.min`/division/`Math.round` all propagate NaN, so on
`none` each returns `none`. -/

/-- `Math.round(Number.isFinite(bpmSmooth) ? bpmSmooth : 60000 /
clamp(beatInterval, 240, 2000))` over the NaN-able domain. -/
def getBPMOpt (bpmSmooth beatInterval : Option ℝ) : Option ℤ :=
  match bpmSmooth with
  | some b => some (round b)
  | none =>
      match beatInterval with
      | some bi => some (round (60000 / clamp bi 240 2000))
      | none => none

/-- The only assignment to `beatInterval` (lines 296-299), over the NaN-able
domain: `interval = now - lastBeatTime`, and the write happens only under
`lastBeatTime > 0 && interval > 180 && interval < 2500` — comparisons that
are false in JavaScript when either operand is NaN, so `beatInterval` can
only ever be overwritten by a `lerp` with a genuine number. -/
def beatIntervalUpdate (beatInterval lastBeatTime interval : Option ℝ) : Option ℝ :=
  match lastBeatTime, interval with
  | some lbt, some iv =>
      if 0 < lbt ∧ 180 < iv ∧ iv < 2500 then
        Option.map (fun bi => lerp bi iv 0.25) beatInterval
      else beatInterval
  | some _, none => beatInterval
  | none, _ => beatInterval

/-! ## MotionCoordinator (js/motionCoordinator.js)

State of the constructor (lines 8-42); `update` (lines 44-124) is staged like
`analyze` above.  `performance.now()` is an input of the call (`now`); the
`musicPhase` parameter is unused by the body and omitted. -/

structure MCState where
  pulse : ℝ
  impact : ℝ
  swell : ℝ
  breathe : ℝ
  lowMotion : ℝ
  midMotion : ℝ
  highMotion : ℝ
  scaleSuggestion : ℝ
  zoomSuggestion : ℝ
  pulseRaw : ℝ
  impactRaw : ℝ
  swellRaw : ℝ
  lowRaw : ℝ
  midRaw : ℝ
  highRaw : ℝ
  pulseSmooth1 : ℝ
  pulseSmooth2 : ℝ
  swellSmooth1 : ℝ
  swellSmooth2 : ℝ
  lastBeatTime : ℝ
  beatLockout : ℝ
  breathePhase : ℝ

/-- The state built by `new MotionCoordinator()`. -/
def mcInit : MCState where
  pulse := 0
  impact := 0
  swell := 0
  breathe := 0
  lowMotion := 0
  midMotion := 0
  highMotion := 0
  scaleSuggestion := 1
  zoomSuggestion := 0
  pulseRaw := 0
  impactRaw := 0
  swellRaw := 0
  lowRaw := 0
  midRaw := 0
  highRaw := 0
  pulseSmooth1 := 0
  pulseSmooth2 := 0
  swellSmooth1 := 0
  swellSmooth2 := 0
  lastBeatTime := 0
  beatLockout := 0
  breathePhase := 0

/-- The fields of the audio analyzer that `update` reads (`audio.…`), plus the
result of `audio.getBPM()` (an integer; `0` is the falsy case of
`audio.getBPM() || 120`). -/
structure AudioSnapshot where
  onsetKick : ℝ
  onsetSnare : ℝ
  onsetHihat : ℝ
  energy : ℝ
  rmsSmooth : ℝ
  smoothSubBass : ℝ
  smoothBass : ℝ
  smoothLowMid : ℝ
  smoothMid : ℝ
  smoothHighMid : ℝ
  smoothHigh : ℝ
  bpm : ℤ

/-- `smoothFactor = 0.3 + smoothness * 0.7` (line 50). -/
def smoothFactor (smoothness : ℝ) : ℝ := 0.3 + smoothness * 0.7

def lerpSlow (dt smoothness : ℝ) : ℝ := dt * (1.5 - smoothFactor smoothness * 1.2)

def lerpMed (dt smoothness : ℝ) : ℝ := dt * (4.0 - smoothFactor smoothness * 3.0)

def lerpFast (dt smoothness : ℝ) : ℝ := dt * (8.0 - smoothFactor smoothness * 5.0)

/-- `beatLockoutTime = 150 + smoothness * 200` (line 57). -/
def beatLockoutTime (smoothness : ℝ) : ℝ := 150 + smoothness * 200

/-- The pulse trigger branch condition (line 59):
`audio.onsetKick > 0.4 && this._beatLockout <= 0`. -/
def mcTriggered (s : MCState) (audio : AudioSnapshot) : Prop :=
  0.4 < audio.onsetKick ∧ s.beatLockout ≤ 0

/-- `_pulseRaw` after trigger (line 61) and decay (lines 68-69). -/
def mPulseRaw (s : MCState) (audio : AudioSnapshot) (smoothness : ℝ) : ℝ :=
  (if mcTriggered s audio then clamp (audio.onsetKick * 0.9) 0.5 1.0 else s.pulseRaw) *
    (0.92 + smoothness * 0.06)

/-- `_beatLockout` after the trigger branch and the countdown (line 65). -/
def mBeatLockout (s : MCState) (audio : AudioSnapshot) (dt smoothness : ℝ) : ℝ :=
  max 0 ((if mcTriggered s audio then beatLockoutTime smoothness else s.beatLockout)
    - dt * 1000)

def mPulseSmooth1 (s : MCState) (audio : AudioSnapshot) (dt smoothness : ℝ) : ℝ :=
  lerp s.pulseSmooth1 (mPulseRaw s audio smoothness) (lerpFast dt smoothness)

def mPulseSmooth2 (s : MCState) (audio : AudioSnapshot) (dt smoothness : ℝ) : ℝ :=
  lerp s.pulseSmooth2 (mPulseSmooth1 s audio dt smoothness) (lerpMed dt smoothness)

/-- Impact envelope (lines 78-81). -/
def mImpactRaw (s : MCState) (audio : AudioSnapshot) (smoothness : ℝ) : ℝ :=
  max (s.impactRaw * 0.9)
    ((audio.onsetSnare * 0.5 + audio.onsetHihat * 0.3) * (1.0 - smoothness * 0.8))

def mImpact (s : MCState) (audio : AudioSnapshot) (dt smoothness : ℝ) : ℝ :=
  lerp s.impact (mImpactRaw s audio smoothness) (lerpFast dt smoothness)

/-- Swell (lines 85-91). -/
def mSwellRaw (s : MCState) (audio : AudioSnapshot) (dt smoothness : ℝ) : ℝ :=
  lerp s.swellRaw (audio.energy * 0.7 + audio.rmsSmooth * 0.3)
    (dt * (0.5 - smoothness * 0.35))

def mSwellSmooth1 (s : MCState) (audio : AudioSnapshot) (dt smoothness : ℝ) : ℝ :=
  lerp s.swellSmooth1 (mSwellRaw s audio dt smoothness) (lerpSlow dt smoothness)

def mSwellSmooth2 (s : MCState) (audio : AudioSnapshot) (dt smoothness : ℝ) : ℝ :=
  lerp s.swellSmooth2 (mSwellSmooth1 s audio dt smoothness) (lerpSlow dt smoothness)

/-- Breathe phase and output (lines 94-97); `audio.getBPM() || 120`. -/
def mBreathePhase (s : MCState) (audio : AudioSnapshot) (dt : ℝ) : ℝ :=
  s.breathePhase + dt * (((if audio.bpm = 0 then 120 else audio.bpm : ℤ) : ℝ) / 60) * 0.25

def mBreathe (s : MCState) (audio : AudioSnapshot) (dt smoothness : ℝ) : ℝ :=
  (Real.sin (mBreathePhase s audio dt * Real.pi * 2) * 0.5 + 0.5) *
    mSwellSmooth2 s audio dt smoothness * 0.7

/-- Per-band motion (lines 100-112). -/
def mLowRaw (s : MCState) (audio : AudioSnapshot) (dt smoothness : ℝ) : ℝ :=
  lerp s.lowRaw ((audio.smoothSubBass + audio.smoothBass) * 0.5) (lerpMed dt smoothness)

def mMidRaw (s : MCState) (audio : AudioSnapshot) (dt smoothness : ℝ) : ℝ :=
  lerp s.midRaw ((audio.smoothLowMid + audio.smoothMid) * 0.5) (lerpMed dt smoothness)

def mHighRaw (s : MCState) (audio : AudioSnapshot) (dt smoothness : ℝ) : ℝ :=
  lerp s.highRaw ((audio.smoothHighMid + audio.smoothHigh) * 0.5) (lerpMed dt smoothness)

def mLowMotion (s : MCState) (audio : AudioSnapshot) (dt smoothness : ℝ) : ℝ :=
  lerp s.lowMotion (mLowRaw s audio dt smoothness) (lerpSlow dt smoothness)

def mMidMotion (s : MCState) (audio : AudioSnapshot) (dt smoothness : ℝ) : ℝ :=
  lerp s.midMotion (mMidRaw s audio dt smoothness) (lerpSlow dt smoothness)

def mHighMotion (s : MCState) (audio : AudioSnapshot) (dt smoothness : ℝ) : ℝ :=
  lerp s.highMotion (mHighRaw s audio dt smoothness) (lerpSlow dt smoothness)

/-- Scale and zoom suggestions (lines 116-123). -/
def mScaleSuggestion (s : MCState) (audio : AudioSnapshot) (dt smoothness : ℝ) : ℝ :=
  1.0 + mPulseSmooth2 s audio dt smoothness * (0.2 - smoothness * 0.12) +
    mSwellSmooth2 s audio dt smoothness * 0.12 + mBreathe s audio dt smoothness * 0.06

def mZoomSuggestion (s : MCState) (audio : AudioSnapshot) (dt smoothness : ℝ) : ℝ :=
  -(mPulseSmooth2 s audio dt smoothness * (0.12 - smoothness * 0.10)) +
    mBreathe s audio dt smoothness * 0.04

/-- One `update(audio, dt, musicPhase, smoothness)` call, with
`now = performance.now()` supplied as an input. -/
def mcUpdate (s : MCState) (audio : AudioSnapshot) (dt now smoothness : ℝ) : MCState where
  pulse := mPulseSmooth2 s audio dt smoothness
  impact := mImpact s audio dt smoothness
  swell := mSwellSmooth2 s audio dt smoothness
  breathe := mBreathe s audio dt smoothness
  lowMotion := mLowMotion s audio dt smoothness
  midMotion := mMidMotion s audio dt smoothness
  highMotion := mHighMotion s audio dt smoothness
  scaleSuggestion := mScaleSuggestion s audio dt smoothness
  zoomSuggestion := mZoomSuggestion s audio dt smoothness
  pulseRaw := mPulseRaw s audio smoothness
  impactRaw := mImpactRaw s audio smoothness
  swellRaw := mSwellRaw s audio dt smoothness
  lowRaw := mLowRaw s audio dt smoothness
  midRaw := mMidRaw s audio dt smoothness
  highRaw := mHighRaw s audio dt smoothness
  pulseSmooth1 := mPulseSmooth1 s audio dt smoothness
  pulseSmooth2 := mPulseSmooth2 s audio dt smoothness
  swellSmooth1 := mSwellSmooth1 s audio dt smoothness
  swellSmooth2 := mSwellSmooth2 s audio dt smoothness
  lastBeatTime := if mcTriggered s audio then now else s.lastBeatTime
  beatLockout := mBeatLockout s audio dt smoothness
  breathePhase := mBreathePhase s audio dt

/-- `getSmoothed(value, extraSmooth)` (lines 127-130), as a state-passing
method: it reads and writes no field, so it returns the state unchanged. -/
def getSmoothed (s : MCState) (value extraSmooth : ℝ) : ℝ × MCState :=
  (value * (1.0 - extraSmooth * 0.5), s)

/-- `k` successive `update` calls from a fresh coordinator, paired with the
number of calls in which the pulse trigger branch executed.  Call `i` gets
snapshot `seq i` and clock value `nowSeq i`. -/
def runMC (seq : ℕ → AudioSnapshot) (nowSeq : ℕ → ℝ) (dt smoothness : ℝ) :
    ℕ → MCState × ℕ
  | 0 => (mcInit, 0)
  | k + 1 =>
      let p := runMC seq nowSeq dt smoothness k
      (mcUpdate p.1 (seq k) dt (nowSeq k) smoothness,
       p.2 + if mcTriggered p.1 (seq k) then 1 else 0)

/-! ## Support states and inputs used by concrete instances below -/

/-- A state like the fresh analyzer but with all four onset envelopes raised
to `1` (any state is admissible for the per-call decay law; this one gives a
concrete instance). -/
def quietState : AnalyzerState :=
  { analyzerInit with onsetKick := 1, onsetSnare := 1, onsetHihat := 1, onsetGlobal := 1 }

/-- A one-bin silent frame: `freqData = [0]`, empty time buffer. -/
def quietInput : AnalyzeInput :=
  { freqData := [0], timeData := [], dt := 1 / 60, smoothingAlpha := 0.18 }

/-- A uniform full-scale frame: eight bins at byte value 255, time buffer at
the midline 128. -/
def spikeInput : AnalyzeInput :=
  { freqData := List.replicate 8 255, timeData := List.replicate 4 128,
    dt := 1 / 60, smoothingAlpha := 0.18 }

/-- The same frame presented again with `dt = 0`. -/
def spikeInputZeroDt : AnalyzeInput := { spikeInput with dt := 0 }

/-- State after one `analyze` call on the full-scale frame from fresh. -/
def spikeS1 : AnalyzerState := analyzeState analyzerInit spikeInput

/-- State after a second, identical call with `dt = 0`. -/
def spikeS2 : AnalyzerState := analyzeState spikeS1 spikeInputZeroDt

/-- An empty frame presented with `dt = 0`. -/
def zeroDtInput : AnalyzeInput :=
  { freqData := [], timeData := [], dt := 0, smoothingAlpha := 0.18 }

/-- A snapshot whose `onsetKick` exceeds the `0.4` pulse threshold on every
read (all other fields silent). -/
def loudAudio : AudioSnapshot :=
  { onsetKick := 1, onsetSnare := 0, onsetHihat := 0, energy := 0, rmsSmooth := 0,
    smoothSubBass := 0, smoothBass := 0, smoothLowMid := 0, smoothMid := 0,
    smoothHighMid := 0, smoothHigh := 0, bpm := 0 }

/-- Closed form of `_beatLockout` after `k` calls of the C4 scenario
(`dt = 1/60`, `smoothness = 0`, kick above threshold every call): period 9. -/
def lockSeq (k : ℕ) : ℝ :=
  if k % 9 = 0 then 0 else ((9 - k % 9 : ℕ) : ℝ) * (50 / 3)

/-- Closed form of the trigger count after `k` such calls. -/
def trigSeq (k : ℕ) : ℕ := (k + 8) / 9

/-- The `rootNote` values the analyzer can hold: the constructor's `NaN`
(modelled `none`) or a pitch-class index `0..11`. -/
def rootNoteOK (s : AnalyzerState) : Prop :=
  s.rootNote = none ∨ ∃ k : ℕ, k < 12 ∧ s.rootNote = some (k : ℝ)

end

open scoped Classical

/-! # Helper lemmas -/

lemma computeLogBandEdges_lt (n : ℕ) (lo hi : ℝ) (hn : 1 ≤ n)
    (hlo : 0 < lo) (hlohi : lo < hi) {i j : ℕ} (hij : i < j) :
    computeLogBandEdges n lo hi i < computeLogBandEdges n lo hi j := by
  unfold computeLogBandEdges
  apply (Real.rpow_lt_rpow_left_iff (by norm_num : (1:ℝ) < 10)).mpr
  have hd : 0 < Real.logb 10 hi - Real.logb 10 lo :=
    sub_pos.mpr (Real.logb_lt_logb (by norm_num) hlo hlohi)
  have hn' : (0:ℝ) < (n:ℝ) := by exact_mod_cast hn
  have : ((i : ℝ) / (n : ℝ)) < ((j : ℝ) / (n : ℝ)) := by
    apply div_lt_div_of_pos_right _ hn'
    exact_mod_cast hij
  nlinarith

lemma computeLogBandEdges_zero (n : ℕ) (lo hi : ℝ) (hlo : 0 < lo) :
    computeLogBandEdges n lo hi 0 = lo := by
  unfold computeLogBandEdges
  norm_num
  exact Real.rpow_logb (by norm_num) (by norm_num) hlo

lemma computeLogBandEdges_last (n : ℕ) (lo hi : ℝ) (hn : 1 ≤ n) (hhi : 0 < hi) :
    computeLogBandEdges n lo hi n = hi := by
  unfold computeLogBandEdges
  have hne : ((n:ℝ)) ≠ 0 := by
    have : (0:ℝ) < (n:ℝ) := by exact_mod_cast hn
    linarith
  rw [div_self hne, one_mul]
  ring_nf
  exact Real.rpow_logb (by norm_num) (by norm_num) hhi

/-! # Claims -/

/-! ### Claim C5 -/

/-- **C5.** For every band count `n ≥ 1` and bounds `0 < lo < hi`,
`_computeLogBandEdges(n, lo, hi)` returns exactly `n + 1` strictly increasing
values whose first element is `lo` and whose last element is `hi` (exactly, in
the real-number model of floating point). -/
theorem claim5_log_band_edges (n : ℕ) (lo hi : ℝ)
    (hn : 1 ≤ n) (hlo : 0 < lo) (hlohi : lo < hi) :
    (computeLogBandEdgesList n lo hi).length = n + 1 ∧
    (computeLogBandEdgesList n lo hi).Chain' (· < ·) ∧
    (computeLogBandEdgesList n lo hi).getD 0 0 = lo ∧
    (computeLogBandEdgesList n lo hi).getD n 0 = hi := by
  have hget : ∀ i, i < n + 1 →
      (computeLogBandEdgesList n lo hi).getD i 0 = computeLogBandEdges n lo hi i := by
    intro i hi'
    rw [computeLogBandEdgesList, List.getD_eq_getElem?_getD]
    simp [List.getElem?_map, List.getElem?_range, hi']
  refine ⟨?_, ?_, ?_, ?_⟩
  · rw [computeLogBandEdgesList, List.length_map, List.length_range]
  · rw [computeLogBandEdgesList, List.chain'_map]
    rw [show n + 1 = Nat.succ n from rfl, List.chain'_range_succ]
    intro m _
    exact computeLogBandEdges_lt n lo hi hn hlo hlohi (Nat.lt_succ_self m)
  · rw [hget 0 (by omega)]
    exact computeLogBandEdges_zero n lo hi hlo
  · rw [hget n (by omega)]
    exact computeLogBandEdges_last n lo hi hn (lt_trans hlo hlohi)

/-- Witness for C5 at the analyzer's own parameters (64 bands, 20–20000 Hz). -/
theorem claim5_log_band_edges_witness :
    ((1:ℕ) ≤ 64 ∧ (0:ℝ) < 20 ∧ (20:ℝ) < 20000) ∧
    ((computeLogBandEdgesList 64 20 20000).length = 64 + 1 ∧
     (computeLogBandEdgesList 64 20 20000).Chain' (· < ·) ∧
     (computeLogBandEdgesList 64 20 20000).getD 0 0 = 20 ∧
     (computeLogBandEdgesList 64 20 20000).getD 64 0 = 20000) :=
  ⟨⟨by norm_num, by norm_num, by norm_num⟩,
   claim5_log_band_edges 64 20 20000 (by norm_num) (by norm_num) (by norm_num)⟩

/-! ### Claim C9 -/

/-- **C9.** After every `analyze` call, for every band `b`,
`bandPeaks[b] ≥ bandValues[b]`: the call sets
`bandPeaks[b] = max(bandPeaks[b] * 0.97, bandValues[b])` and never touches
either array afterwards. -/
theorem claim9_band_peak_dominates (s : AnalyzerState) (inp : AnalyzeInput) (b : Fin 64) :
    (analyzeState s inp).bandPeaks b ≥ (analyzeState s inp).bandValues b ∧
    (analyzeState s inp).bandPeaks b =
      max (s.bandPeaks b * 0.97) ((analyzeState s inp).bandValues b) :=
  ⟨le_max_right _ _, rfl⟩

/-! ### Claim C10 -/

/-- **C10.** `MotionCoordinator.getSmoothed(value, extraSmooth)` is pure and
stateless: it returns exactly `value * (1 - extraSmooth * 0.5)`, leaves every
coordinator field unchanged, and its result does not depend on the state. -/
theorem claim10_getSmoothed_pure (s : MCState) (value extraSmooth : ℝ) :
    (getSmoothed s value extraSmooth).1 = value * (1 - extraSmooth * 0.5) ∧
    (getSmoothed s value extraSmooth).2 = s ∧
    ∀ s' : MCState, (getSmoothed s' value extraSmooth).1 =
      (getSmoothed s value extraSmooth).1 :=
  ⟨by norm_num [getSmoothed], rfl, fun _ => rfl⟩

/-! ### Claim C1

The claim reads the flux loop (lines 164-184) as routing a 150–400 Hz band's
squared rectified delta to **both** the kick sum (weight 0.5) and the snare
sum (weight 1.0 for 200–400 Hz).  The source is an `else-if` chain: a band
whose centre lies in 150–400 Hz is consumed by the second branch (kick,
weight 0.5) and never reaches the snare branch, so the snare sum only ever
receives bands with centre in 400–2000 Hz.  The claim is corrected. -/

/-- **C1, counterexample.** A band with centre 300 Hz and rectified delta 1:
the claim says the snare sum receives `1.0 * 1`; the `else-if` chain gives the
snare accumulator `0` (the kick accumulator gets the `0.5` weight). -/
theorem claim1_counterexample :
    (fluxDispatch 300 1).2.1 = 0 ∧ (fluxDispatch 300 1).1 = 0.5 ∧
    (fluxDispatch 300 1).2.1 ≠ 1 := by
  norm_num [fluxDispatch]

/-- **C1, amended.** Bands with centre in 150–400 Hz contribute only to the
kick sum (weight 0.5) and nothing to the snare or hihat sums; the snare sum
receives exactly the bands with centre in 400–2000 Hz (weight 1.0); bands
below 150 Hz feed only the kick sum with weight 2.0.  There is no kick/snare
overlap. -/
theorem claim1_flux_routing (hz r : ℝ) :
    (150 ≤ hz → hz < 400 → fluxDispatch hz r = (r * 0.5, 0, 0)) ∧
    (400 ≤ hz → hz < 2000 → fluxDispatch hz r = (0, r, 0)) ∧
    (hz < 150 → fluxDispatch hz r = (r * 2.0, 0, 0)) := by
  refine ⟨fun h1 h2 => ?_, fun h1 h2 => ?_, fun h1 => ?_⟩
  · rw [fluxDispatch, if_neg (by linarith), if_pos ⟨h1, h2⟩]
  · rw [fluxDispatch, if_neg (by linarith), if_neg (by push_neg; intro; linarith),
      if_pos ⟨by linarith, h2⟩]
  · rw [fluxDispatch, if_pos h1]

/-- Witness for C1 (amended) at centres 300 Hz, 500 Hz and 100 Hz. -/
theorem claim1_flux_routing_witness :
    ((150:ℝ) ≤ 300 ∧ (300:ℝ) < 400 ∧ fluxDispatch 300 1 = (1 * 0.5, 0, 0)) ∧
    ((400:ℝ) ≤ 500 ∧ (500:ℝ) < 2000 ∧ fluxDispatch 500 1 = (0, 1, 0)) ∧
    ((100:ℝ) < 150 ∧ fluxDispatch 100 1 = (1 * 2.0, 0, 0)) :=
  ⟨⟨by norm_num, by norm_num, (claim1_flux_routing 300 1).1 (by norm_num) (by norm_num)⟩,
   ⟨by norm_num, by norm_num, (claim1_flux_routing 500 1).2.1 (by norm_num) (by norm_num)⟩,
   ⟨by norm_num, (claim1_flux_routing 100 1).2.2 (by norm_num)⟩⟩

/-! ### Claim C6 -/

lemma runAnalyzer_beat_bar (l : List AnalyzeInput) : ∀ s : AnalyzerState,
    (runAnalyzer s l).beatCount = s.beatCount + firedCount s l ∧
    (s.barCount = s.beatCount / 4 →
      (runAnalyzer s l).barCount = (runAnalyzer s l).beatCount / 4) := by
  induction l with
  | nil => intro s; exact ⟨by simp [runAnalyzer, firedCount], fun h => by
      simpa [runAnalyzer] using h⟩
  | cons inp rest ih =>
    intro s
    obtain ⟨h1, h2⟩ := ih (analyzeState s inp)
    constructor
    · show (runAnalyzer (analyzeState s inp) rest).beatCount =
        s.beatCount + ((if aIsBeat s inp then 1 else 0) + firedCount (analyzeState s inp) rest)
      rw [h1]
      have hb : (analyzeState s inp).beatCount = aBeatCount s inp := rfl
      rw [hb, aBeatCount]
      split_ifs <;> omega
    · intro hbar
      apply h2
      show aBarCount s inp = aBeatCount s inp / 4
      rw [aBarCount, aBeatCount]
      split_ifs <;> omega

/-- **C6.** From a fresh analyzer, `beatCount` equals the number of fired
beats and `barCount` is always `beatCount / 4`: so after exactly 4 fired
beats `barCount` has incremented by exactly 1 (`4 / 4 = 1`) and after exactly
3 it has not (`3 / 4 = 0`) — every 4th fired beat increments `barCount`. -/
theorem claim6_bar_counting (l : List AnalyzeInput) :
    (runAnalyzer analyzerInit l).beatCount = firedCount analyzerInit l ∧
    (runAnalyzer analyzerInit l).barCount = (runAnalyzer analyzerInit l).beatCount / 4 := by
  obtain ⟨h1, h2⟩ := runAnalyzer_beat_bar l analyzerInit
  refine ⟨?_, h2 rfl⟩
  rw [h1]
  show 0 + _ = _
  rw [Nat.zero_add]

/-! ### Claim C8 -/

/-- **C8.** `getBPM()` returns the rounded `bpmSmooth` whenever that is
finite, and otherwise the rounded `60000 / clamp(beatInterval, 240, 2000)`;
whenever `beatInterval` is a number the result is a number, never NaN — and
`beatInterval` is a number in every reachable analyzer state, since it starts
at 500 and its only assignment (the guarded `lerp` of lines 297-299, last
conjunct below) preserves being a number whatever `lastBeatTime` and
`interval` are, NaN included. -/
theorem claim8_getBPM_total (bpmSmooth beatInterval : Option ℝ)
    (h : beatInterval.isSome) :
    (getBPMOpt bpmSmooth beatInterval).isSome ∧
    (∀ b : ℝ, bpmSmooth = some b →
      getBPMOpt bpmSmooth beatInterval = some (round b)) ∧
    (∀ bi : ℝ, bpmSmooth = none → beatInterval = some bi →
      getBPMOpt bpmSmooth beatInterval = some (round (60000 / clamp bi 240 2000))) ∧
    (∀ lastBeatTime interval : Option ℝ,
      (beatIntervalUpdate beatInterval lastBeatTime interval).isSome) := by
  have hupd : ∀ lastBeatTime interval : Option ℝ,
      (beatIntervalUpdate beatInterval lastBeatTime interval).isSome := by
    intro lbt iv
    cases lbt with
    | none => exact h
    | some l =>
      cases iv with
      | none => exact h
      | some v =>
        simp only [beatIntervalUpdate]
        split_ifs
        · simpa using h
        · exact h
  cases bpmSmooth with
  | some b =>
      exact ⟨rfl, fun b' hb => by simp_all [getBPMOpt], fun bi h1 h2 => by simp_all, hupd⟩
  | none =>
    cases beatInterval with
    | some bi =>
        exact ⟨rfl, fun b' hb => by simp_all,
          fun bi' h1 h2 => by simp_all [getBPMOpt], hupd⟩
    | none => simp at h

/-- Witness for C8: a state with non-finite smoothed BPM and
`beatInterval = 500` falls back to `round(60000 / 500) = 120`. -/
theorem claim8_getBPM_total_witness :
    (Option.isSome (some (500:ℝ)) = true) ∧
    (getBPMOpt none (some (500:ℝ))).isSome ∧
    getBPMOpt none (some (500:ℝ)) = some (round ((60000:ℝ) / clamp 500 240 2000)) := by
  refine ⟨rfl, (claim8_getBPM_total none (some 500) rfl).1, ?_⟩
  exact (claim8_getBPM_total none (some 500) rfl).2.2.1 500 rfl rfl

/-! ### Claim C7 -/

/-- **C7.** In any call in which a channel does not fire, that channel's
onset envelope is multiplied by its fixed decay factor (kick 0.78, snare
0.82, global 0.88, hihat 0.90 — all within 0.78–0.90), hence strictly
decreases whenever it was positive. -/
theorem claim7_onset_decay (s : AnalyzerState) (inp : AnalyzeInput) :
    (¬ aKickFires s inp → 0 < s.onsetKick →
      (analyzeState s inp).onsetKick = s.onsetKick * 0.78 ∧
      (analyzeState s inp).onsetKick < s.onsetKick) ∧
    (¬ aSnareFires s inp → 0 < s.onsetSnare →
      (analyzeState s inp).onsetSnare = s.onsetSnare * 0.82 ∧
      (analyzeState s inp).onsetSnare < s.onsetSnare) ∧
    (¬ aHihatFires s inp → 0 < s.onsetHihat →
      (analyzeState s inp).onsetHihat = s.onsetHihat * 0.90 ∧
      (analyzeState s inp).onsetHihat < s.onsetHihat) ∧
    (¬ aGlobalFires s inp → 0 < s.onsetGlobal →
      (analyzeState s inp).onsetGlobal = s.onsetGlobal * 0.88 ∧
      (analyzeState s inp).onsetGlobal < s.onsetGlobal) := by
  refine ⟨fun hnf hpos => ?_, fun hnf hpos => ?_, fun hnf hpos => ?_, fun hnf hpos => ?_⟩
  · have h0 : aKOn s inp = 0 := by rw [aKOn, if_neg hnf]
    have he : (analyzeState s inp).onsetKick = s.onsetKick * 0.78 := by
      show aOnsetKick s inp = _
      rw [aOnsetKick, h0]
      exact max_eq_right (by nlinarith)
    exact ⟨he, by rw [he]; nlinarith⟩
  · have h0 : aSOn s inp = 0 := by rw [aSOn, if_neg hnf]
    have he : (analyzeState s inp).onsetSnare = s.onsetSnare * 0.82 := by
      show aOnsetSnare s inp = _
      rw [aOnsetSnare, h0]
      exact max_eq_right (by nlinarith)
    exact ⟨he, by rw [he]; nlinarith⟩
  · have h0 : aHOn s inp = 0 := by rw [aHOn, if_neg hnf]
    have he : (analyzeState s inp).onsetHihat = s.onsetHihat * 0.90 := by
      show aOnsetHihat s inp = _
      rw [aOnsetHihat, h0]
      exact max_eq_right (by nlinarith)
    exact ⟨he, by rw [he]; nlinarith⟩
  · have h0 : aGOn s inp = 0 := by rw [aGOn, if_neg hnf]
    have he : (analyzeState s inp).onsetGlobal = s.onsetGlobal * 0.88 := by
      show aOnsetGlobal s inp = _
      rw [aOnsetGlobal, h0]
      exact max_eq_right (by nlinarith)
    exact ⟨he, by rw [he]; nlinarith⟩

lemma quiet_aVal (b : ℕ) : aVal quietState quietInput b = 0 := by
  have hempty : bandBins quietState (aN quietInput) b = ∅ := by
    rw [bandBins]
    apply Finset.Icc_eq_empty
    intro hle
    have h1 : (1:ℤ) ≤ bandStartBin quietState b := le_max_left _ _
    have h2 : bandEndBin quietState (aN quietInput) b ≤ (aN quietInput : ℤ) - 1 :=
      min_le_left _ _
    have hN : ((aN quietInput : ℤ)) = 1 := by norm_num [aN, quietInput]
    have h3 := le_trans h1 (le_trans hle h2)
    rw [hN] at h3
    norm_num at h3
  simp [aVal, hempty]

lemma quiet_aRect (b : Fin 64) : aRect quietState quietInput b = 0 := by
  have hprev : quietState.prevBandValues b = 0 := rfl
  simp [aRect, aPos, quiet_aVal, hprev]

lemma fluxDispatch_zero (hz : ℝ) : fluxDispatch hz 0 = (0, 0, 0) := by
  rw [fluxDispatch]
  split_ifs <;> norm_num

lemma quiet_fluxes :
    aFlux quietState quietInput = 0 ∧ aFluxKick quietState quietInput = 0 ∧
    aFluxSnare quietState quietInput = 0 ∧ aFluxHihat quietState quietInput = 0 := by
  refine ⟨?_, ?_, ?_, ?_⟩
  · simp [aFlux, quiet_aRect]
  · simp [aFluxKick, quiet_aRect, fluxDispatch_zero]
  · simp [aFluxSnare, quiet_aRect, fluxDispatch_zero]
  · simp [aFluxHihat, quiet_aRect, fluxDispatch_zero]

lemma median_singleton (x : ℝ) : jsMedian [x] = x := by
  rw [jsMedian]
  simp [jsSorted, lerp]

lemma adaptiveThreshold_singleton_zero (k : ℝ) :
    adaptiveThreshold [(0:ℝ)] k = k * 1e-6 := by
  rw [adaptiveThreshold, jsMad]
  simp [median_singleton]

lemma quiet_no_fire :
    ¬ aKickFires quietState quietInput ∧ ¬ aSnareFires quietState quietInput ∧
    ¬ aHihatFires quietState quietInput ∧ ¬ aGlobalFires quietState quietInput := by
  obtain ⟨hf, hk, hs, hh⟩ := quiet_fluxes
  refine ⟨?_, ?_, ?_, ?_⟩
  · rintro ⟨hlt, -⟩
    rw [aThrKick, aFluxKickHist, hk] at hlt
    have hh' : pushHist quietState.fluxKickHist 0 50 = [0] := by
      simp [quietState, analyzerInit, pushHist]
    rw [hh', adaptiveThreshold_singleton_zero] at hlt
    norm_num at hlt
  · rintro ⟨hlt, -⟩
    rw [aThrSnare, aFluxSnareHist, hs] at hlt
    have hh' : pushHist quietState.fluxSnareHist 0 50 = [0] := by
      simp [quietState, analyzerInit, pushHist]
    rw [hh', adaptiveThreshold_singleton_zero] at hlt
    norm_num at hlt
  · rintro ⟨hlt, -⟩
    rw [aThrHihat, aFluxHihatHist, hh] at hlt
    have hh' : pushHist quietState.fluxHihatHist 0 40 = [0] := by
      simp [quietState, analyzerInit, pushHist]
    rw [hh', adaptiveThreshold_singleton_zero] at hlt
    norm_num at hlt
  · rintro ⟨hlt, -⟩
    rw [aThrGlobal, aFluxHist, hf] at hlt
    have hh' : pushHist quietState.fluxHist 0 60 = [0] := by
      simp [quietState, analyzerInit, pushHist]
    rw [hh', adaptiveThreshold_singleton_zero] at hlt
    norm_num at hlt

/-- Witness for C7: from a state with all four onsets at `1`, a silent
one-bin frame fires no channel and each onset decays to its factor. -/
theorem claim7_onset_decay_witness :
    ((¬ aKickFires quietState quietInput) ∧ 0 < quietState.onsetKick ∧
      (analyzeState quietState quietInput).onsetKick = quietState.onsetKick * 0.78 ∧
      (analyzeState quietState quietInput).onsetKick < quietState.onsetKick) ∧
    ((¬ aSnareFires quietState quietInput) ∧ 0 < quietState.onsetSnare ∧
      (analyzeState quietState quietInput).onsetSnare = quietState.onsetSnare * 0.82 ∧
      (analyzeState quietState quietInput).onsetSnare < quietState.onsetSnare) ∧
    ((¬ aHihatFires quietState quietInput) ∧ 0 < quietState.onsetHihat ∧
      (analyzeState quietState quietInput).onsetHihat = quietState.onsetHihat * 0.90 ∧
      (analyzeState quietState quietInput).onsetHihat < quietState.onsetHihat) ∧
    ((¬ aGlobalFires quietState quietInput) ∧ 0 < quietState.onsetGlobal ∧
      (analyzeState quietState quietInput).onsetGlobal = quietState.onsetGlobal * 0.88 ∧
      (analyzeState quietState quietInput).onsetGlobal < quietState.onsetGlobal) := by
  obtain ⟨hk, hs, hh, hg⟩ := quiet_no_fire
  have hpos : (0:ℝ) < 1 := by norm_num
  obtain ⟨c1, c2, c3, c4⟩ := claim7_onset_decay quietState quietInput
  exact ⟨⟨hk, hpos, c1 hk hpos⟩, ⟨hs, hpos, c2 hs hpos⟩,
         ⟨hh, hpos, c3 hh hpos⟩, ⟨hg, hpos, c4 hg hpos⟩⟩

/-! ### Claim C2

The constructor sets `this.rootNote = NaN` (line 46), so right after
construction `rootNote` is **not** a finite number; it stays `NaN` until an
`analyze` call sees a dominant chroma above `0.1` (lines 324-327).  The claim
is corrected: the finiteness invariant holds for every public field except
`rootNote`, which is `NaN`-or-pitch-class. -/

lemma chromaScan_idx_lt (c : Fin 12 → ℝ) : (chromaScan c).2 < 12 := by
  rw [chromaScan]
  have key : ∀ (l : List (Fin 12)) (acc : ℝ × ℕ), acc.2 < 12 →
      (l.foldl (fun acc i => if acc.1 < c i then (c i, (i : ℕ)) else acc) acc).2 < 12 := by
    intro l
    induction l with
    | nil => intro acc h; exact h
    | cons i t ih =>
      intro acc h
      simp only [List.foldl_cons]
      apply ih
      split_ifs
      · exact i.isLt
      · exact h
  exact key _ _ (by norm_num)

/-- **C2, counterexample.** Right after construction `rootNote` is `NaN`
(modelled `none`): it is not any finite number, refuting the claim that every
public field including `rootNote` is finite after construction. -/
theorem claim2_counterexample :
    analyzerInit.rootNote = none ∧ ¬ ∃ x : ℝ, analyzerInit.rootNote = some x :=
  ⟨rfl, by simp [analyzerInit]⟩

/-- **C2, amended.** All public fields except `rootNote` are real numbers in
every state of the model; `rootNote` is `NaN` after construction and, after
any sequence of `analyze` calls, is either still `NaN` or a pitch-class index
`0..11` (it is overwritten only when the dominant chroma exceeds `0.1`). -/
theorem claim2_rootNote_invariant :
    analyzerInit.rootNote = none ∧ rootNoteOK analyzerInit ∧
    ∀ (s : AnalyzerState) (inp : AnalyzeInput),
      rootNoteOK s → rootNoteOK (analyzeState s inp) := by
  refine ⟨rfl, Or.inl rfl, fun s inp h => ?_⟩
  show (analyzeState s inp).rootNote = none ∨ _
  have hr : (analyzeState s inp).rootNote = aRootNote s inp := rfl
  rw [hr, aRootNote]
  split_ifs with hmax
  · exact Or.inr ⟨aMaxChromaIdx s inp, chromaScan_idx_lt _, rfl⟩
  · exact h

/-- Witness for C2 (amended): the invariant holds at the fresh state and is
carried through one concrete `analyze` call. -/
theorem claim2_rootNote_invariant_witness :
    rootNoteOK analyzerInit ∧ rootNoteOK (analyzeState analyzerInit quietInput) :=
  ⟨Or.inl rfl, claim2_rootNote_invariant.2.2 analyzerInit quietInput (Or.inl rfl)⟩

/-! ### Claim C4

With `smoothness = 0` the lockout is exactly 150 ms and each call subtracts
`dt * 1000 = 1000/60` ms.  After a trigger the countdown reaches exactly `0`
after 9 calls, and the branch tests `_beatLockout <= 0` (inclusive), so the
trigger recurs every 9th call: calls 1, 10, 19, 28, 37, 46, 55 — **7**
executions in 60 calls, one more than the claimed bound `1000/150 ≈ 6`.  The
lockout does prevent the 60-per-second firing, but the exact count is 7. -/

lemma runMC_lockout_closed (seq : ℕ → AudioSnapshot) (nowSeq : ℕ → ℝ)
    (hseq : ∀ k, 0.4 < (seq k).onsetKick) :
    ∀ k, (runMC seq nowSeq (1 / 60) 0 k).1.beatLockout = lockSeq k ∧
         (runMC seq nowSeq (1 / 60) 0 k).2 = trigSeq k := by
  intro k
  induction k with
  | zero =>
    constructor
    · show mcInit.beatLockout = lockSeq 0
      rw [lockSeq]
      norm_num [mcInit]
    · show (0 : ℕ) = trigSeq 0
      rw [trigSeq]
  | succ k ih =>
    obtain ⟨hl, hc⟩ := ih
    have hproj1 : (runMC seq nowSeq (1 / 60) 0 (k + 1)).1.beatLockout =
        mBeatLockout (runMC seq nowSeq (1 / 60) 0 k).1 (seq k) (1 / 60) 0 := rfl
    have hproj2 : (runMC seq nowSeq (1 / 60) 0 (k + 1)).2 =
        (runMC seq nowSeq (1 / 60) 0 k).2 +
          if mcTriggered (runMC seq nowSeq (1 / 60) 0 k).1 (seq k) then 1 else 0 := rfl
    by_cases h9 : k % 9 = 0
    · have htrig : mcTriggered (runMC seq nowSeq (1 / 60) 0 k).1 (seq k) := by
        refine ⟨hseq k, ?_⟩
        rw [hl, lockSeq, if_pos h9]
      constructor
      · rw [hproj1, mBeatLockout, if_pos htrig, beatLockoutTime, lockSeq,
          if_neg (by omega : ¬ (k + 1) % 9 = 0)]
        have h1 : (k + 1) % 9 = 1 := by omega
        rw [h1]
        norm_num
      · rw [hproj2, hc, if_pos htrig, trigSeq, trigSeq]
        omega
    · have hlpos : 0 < lockSeq k := by
        rw [lockSeq, if_neg h9]
        have h1 : 1 ≤ 9 - k % 9 := by omega
        have h2 : (1 : ℝ) ≤ ((9 - k % 9 : ℕ) : ℝ) := by exact_mod_cast h1
        nlinarith
      have hntrig : ¬ mcTriggered (runMC seq nowSeq (1 / 60) 0 k).1 (seq k) := by
        rintro ⟨-, hle⟩
        rw [hl] at hle
        linarith
      constructor
      · rw [hproj1, mBeatLockout, if_neg hntrig, hl, lockSeq, if_neg h9, lockSeq]
        have hle9 : k % 9 ≤ 9 := by omega
        have hcast : ((9 - k % 9 : ℕ) : ℝ) = 9 - ((k % 9 : ℕ) : ℝ) := by
          push_cast [Nat.cast_sub hle9]
          ring
        rcases Nat.lt_or_ge (k % 9) 8 with h8 | h8
        · rw [if_neg (by omega : ¬ (k + 1) % 9 = 0)]
          have h1 : (k + 1) % 9 = k % 9 + 1 := by omega
          have hcast2 : ((9 - (k + 1) % 9 : ℕ) : ℝ) = 8 - ((k % 9 : ℕ) : ℝ) := by
            rw [h1, (by omega : 9 - (k % 9 + 1) = 8 - k % 9)]
            push_cast [Nat.cast_sub (by omega : k % 9 ≤ 8)]
            ring
          rw [hcast, hcast2]
          have hr8 : ((k % 9 : ℕ) : ℝ) ≤ 7 := by exact_mod_cast Nat.le_of_lt_succ h8
          rw [max_eq_right (by nlinarith)]
          ring
        · have h8' : k % 9 = 8 := by omega
          rw [if_pos (by omega : (k + 1) % 9 = 0), hcast, h8']
          norm_num
      · rw [hproj2, hc, if_neg hntrig, trigSeq, trigSeq]
        omega

/-- **C4, counterexample.** Feeding `onsetKick = 1` for 60 calls at
`dt = 1/60`, `smoothness = 0` executes the pulse trigger branch exactly **7**
times, exceeding the claimed bound of 6: the countdown hits exactly `0` after
9 frames and `<= 0` re-arms the trigger on the 150 ms boundary. -/
theorem claim4_counterexample :
    (runMC (fun _ => loudAudio) (fun _ => 0) (1 / 60) 0 60).2 = 7 ∧
    ¬ ((runMC (fun _ => loudAudio) (fun _ => 0) (1 / 60) 0 60).2 ≤ 6) := by
  have h := (runMC_lockout_closed (fun _ => loudAudio) (fun _ => 0)
      (fun _ => by norm_num [loudAudio]) 60).2
  rw [trigSeq] at h
  norm_num at h
  exact ⟨h, by rw [h]; norm_num⟩

/-- **C4, amended.** In the claim's scenario (60 calls, `dt = 1/60` s,
`smoothness = 0`, `onsetKick > 0.4` on every call) the pulse trigger branch
executes exactly 7 times — far fewer than 60, re-arming every 9th call, but
one more than `⌊1000/150⌋ = 6` because the lockout test `<= 0` includes the
exact 150 ms boundary. -/
theorem claim4_pulse_lockout (seq : ℕ → AudioSnapshot) (nowSeq : ℕ → ℝ)
    (hseq : ∀ k, 0.4 < (seq k).onsetKick) :
    (runMC seq nowSeq (1 / 60) 0 60).2 = 7 := by
  have h := (runMC_lockout_closed seq nowSeq hseq 60).2
  rw [trigSeq] at h
  norm_num at h
  exact h

/-- Witness for C4 (amended): the constant loud snapshot. -/
theorem claim4_pulse_lockout_witness :
    (∀ k : ℕ, 0.4 < ((fun _ => loudAudio) k).onsetKick) ∧
    (runMC (fun _ => loudAudio) (fun _ => 0) (1 / 60) 0 60).2 = 7 :=
  ⟨fun _ => by norm_num [loudAudio],
   claim4_pulse_lockout (fun _ => loudAudio) (fun _ => 0)
     (fun _ => by norm_num [loudAudio])⟩

/-! ### Claim C3

The decays of `onsetDecay` (×0.82), `bandPeaks` (×0.97) and the onset
channels (×0.78…0.90) are applied **per call**, not per second, and the
adaptive FFT smoothing keeps moving the smoothed bins toward the input even
when the input repeats; so a second `analyze` call with identical inputs and
`dt = 0` does change those fields.  Concretely, from a fresh analyzer, one
uniform full-scale frame puts `onsetDecay[0] = 1`; repeating the same frame
with `dt = 0` gives `onsetDecay[0] = 0.82`.  Only the explicitly time-based
quantities (`_tMs`, the RMS envelope, the seven named-band envelopes) are
frozen at `dt = 0`. -/

lemma replicate255_getD (i : ℕ) (hi : i < 8) :
    (List.replicate 8 (255:ℝ)).getD i 0 = 255 := by
  rw [List.getD_eq_getElem?_getD, List.getElem?_replicate, if_pos hi]
  rfl

lemma spike_fft1 (i : ℕ) (hi : i < 8) : newFft analyzerInit spikeInput i = 0.45 := by
  rw [newFft]
  rw [if_pos (show i < aN spikeInput from hi)]
  have he : ensuredFft analyzerInit (aN spikeInput) i = 0 := by
    rw [ensuredFft, if_neg (by decide)]
  have hg : spikeInput.freqData.getD i 0 = 255 := replicate255_getD i hi
  have ha : spikeInput.smoothingAlpha = 0.18 := rfl
  simp only [he, hg, baseAlpha, ha]
  norm_num [Real.one_rpow, clamp, lerp]

lemma spike_E0 : analyzerInit.bandEdges 0 = 20 := by
  show computeLogBandEdges 64 20 20000 0 = 20
  exact computeLogBandEdges_zero _ _ _ (by norm_num)

lemma spike_E1 : (20:ℝ) < analyzerInit.bandEdges 1 := by
  have h := computeLogBandEdges_lt 64 20 20000 (by norm_num) (by norm_num)
    (by norm_num) (show 0 < 1 by norm_num)
  rw [computeLogBandEdges_zero _ _ _ (by norm_num)] at h
  exact h

lemma spike_startBin : bandStartBin analyzerInit 0 = 3 := by
  rw [bandStartBin, spike_E0]
  have hz : hzPerBin analyzerInit = 48000 / 8192 := rfl
  rw [hz, show ((20:ℝ) / (48000 / 8192)) = 256 / 75 by norm_num]
  rw [show ⌊(256 / 75 : ℝ)⌋ = 3 from by rw [Int.floor_eq_iff]; norm_num]
  norm_num

lemma spike_endBin :
    3 ≤ bandEndBin analyzerInit (aN spikeInput) 0 ∧
    bandEndBin analyzerInit (aN spikeInput) 0 ≤ 7 := by
  have hN : ((aN spikeInput : ℤ)) = 8 := rfl
  constructor
  · rw [bandEndBin]
    apply le_min
    · rw [hN]; norm_num
    · have hz : hzPerBin analyzerInit = 48000 / 8192 := rfl
      have hdiv : (3:ℝ) < analyzerInit.bandEdges (0 + 1) / hzPerBin analyzerInit := by
        rw [hz, lt_div_iff₀ (by norm_num : (0:ℝ) < 48000 / 8192)]
        have := spike_E1
        norm_num
        linarith
      have h3 : (3:ℤ) < ⌈analyzerInit.bandEdges (0 + 1) / hzPerBin analyzerInit⌉ :=
        Int.lt_ceil.mpr (by exact_mod_cast hdiv)
      omega
  · rw [bandEndBin]
    have := min_le_left ((aN spikeInput : ℤ) - 1)
      ⌈analyzerInit.bandEdges (0 + 1) / hzPerBin analyzerInit⌉
    rw [hN] at this
    omega

lemma aVal_const (s : AnalyzerState) (inp : AnalyzeInput) (b : ℕ) (c : ℝ)
    (hne : bandStartBin s b ≤ bandEndBin s (aN inp) b)
    (hval : ∀ i ∈ bandBins s (aN inp) b, newFft s inp i.toNat = c) :
    aVal s inp b = c := by
  have hpos : ∀ i ∈ bandBins s (aN inp) b, 0 < binWeight (aN inp) i := by
    intro i hi
    rw [bandBins, Finset.mem_Icc] at hi
    have h1 : (1:ℤ) ≤ i := le_trans (le_max_left 1 _) hi.1
    rw [binWeight]
    have h2 : (0:ℝ) ≤ ((i : ℝ) / (aN inp : ℝ)) * 0.5 := by
      apply mul_nonneg _ (by norm_num)
      apply div_nonneg _ (by positivity)
      exact_mod_cast le_trans zero_le_one h1
    linarith
  have hw : 0 < ∑ i in bandBins s (aN inp) b, binWeight (aN inp) i := by
    apply Finset.sum_pos hpos
    rw [bandBins]
    exact Finset.nonempty_Icc.mpr hne
  rw [aVal, if_pos hw, Finset.sum_congr rfl (fun i hi => by rw [hval i hi]),
    ← Finset.mul_sum, mul_div_assoc, div_self (ne_of_gt hw), mul_one]

lemma spike_aVal1 : aVal analyzerInit spikeInput 0 = 0.45 := by
  apply aVal_const
  · rw [spike_startBin]
    exact spike_endBin.1
  · intro i hi
    rw [bandBins, Finset.mem_Icc] at hi
    apply spike_fft1
    have h7 : i ≤ 7 := le_trans hi.2 spike_endBin.2
    have h1 : (1:ℤ) ≤ i := le_trans (le_max_left 1 _) hi.1
    omega

lemma spike_decay1 : spikeS1.onsetDecay 0 = 1 := by
  show max (analyzerInit.onsetDecay 0 * 0.82)
    (clamp (aPos analyzerInit spikeInput 0 * 2.8) 0 1) = 1
  have hb : ((0 : Fin 64) : ℕ) = 0 := rfl
  have hpos : aPos analyzerInit spikeInput 0 = 0.45 := by
    rw [aPos, hb, spike_aVal1]
    have hprev : analyzerInit.prevBandValues 0 = 0 := rfl
    rw [hprev]
    norm_num
  rw [hpos]
  have hdec : analyzerInit.onsetDecay 0 = 0 := rfl
  rw [hdec]
  norm_num [clamp]

lemma spike_fft2 (i : ℕ) (hi : i < 8) : newFft spikeS1 spikeInputZeroDt i = 0.6975 := by
  rw [newFft]
  rw [if_pos (show i < aN spikeInputZeroDt from hi)]
  have he : ensuredFft spikeS1 (aN spikeInputZeroDt) i = 0.45 := by
    rw [ensuredFft, if_pos (show spikeS1.fftLen = aN spikeInputZeroDt from rfl)]
    show newFft analyzerInit spikeInput i = 0.45
    exact spike_fft1 i hi
  have hg : spikeInputZeroDt.freqData.getD i 0 = 255 := replicate255_getD i hi
  have ha : spikeInputZeroDt.smoothingAlpha = 0.18 := rfl
  simp only [he, hg, baseAlpha, ha]
  norm_num [Real.one_rpow, clamp, lerp]

lemma spike_aVal2 : aVal spikeS1 spikeInputZeroDt 0 = 0.6975 := by
  apply aVal_const
  · have h1 : bandStartBin spikeS1 0 = bandStartBin analyzerInit 0 := rfl
    have h2 : bandEndBin spikeS1 (aN spikeInputZeroDt) 0 =
        bandEndBin analyzerInit (aN spikeInput) 0 := rfl
    rw [h1, h2, spike_startBin]
    exact spike_endBin.1
  · intro i hi
    have h2 : bandBins spikeS1 (aN spikeInputZeroDt) 0 =
        bandBins analyzerInit (aN spikeInput) 0 := rfl
    rw [h2, bandBins, Finset.mem_Icc] at hi
    apply spike_fft2
    have h7 : i ≤ 7 := le_trans hi.2 spike_endBin.2
    have h1 : (1:ℤ) ≤ i := le_trans (le_max_left 1 _) hi.1
    omega

lemma spike_decay2 : spikeS2.onsetDecay 0 = 0.82 := by
  show max (spikeS1.onsetDecay 0 * 0.82)
    (clamp (aPos spikeS1 spikeInputZeroDt 0 * 2.8) 0 1) = 0.82
  have hb : ((0 : Fin 64) : ℕ) = 0 := rfl
  have hprev : spikeS1.prevBandValues 0 = 0.45 := by
    show aVal analyzerInit spikeInput ((0 : Fin 64) : ℕ) = 0.45
    rw [hb, spike_aVal1]
  have hpos : aPos spikeS1 spikeInputZeroDt 0 = 0.2475 := by
    rw [aPos, hb, spike_aVal2, hprev]
    norm_num
  rw [hpos, spike_decay1]
  norm_num [clamp]

/-- **C3, counterexample.** From a fresh analyzer, a uniform full-scale frame
sets `onsetDecay[0] = 1`; calling `analyze` a second time with the identical
frame and `dt = 0` changes it to `0.82` — the per-call `×0.82` decay runs
even at `dt = 0`, refuting "no FeatureSnapshot field changes value". -/
theorem claim3_counterexample :
    spikeInputZeroDt.freqData = spikeInput.freqData ∧
    spikeInputZeroDt.timeData = spikeInput.timeData ∧
    spikeInputZeroDt.smoothingAlpha = spikeInput.smoothingAlpha ∧
    spikeInputZeroDt.dt = 0 ∧
    spikeS1.onsetDecay 0 = 1 ∧ spikeS2.onsetDecay 0 = 0.82 ∧
    spikeS2.onsetDecay 0 ≠ spikeS1.onsetDecay 0 := by
  refine ⟨rfl, rfl, rfl, rfl, spike_decay1, spike_decay2, ?_⟩
  rw [spike_decay1, spike_decay2]
  norm_num

/-- **C3, amended.** At `dt = 0` only the time-driven fields are guaranteed
unchanged — `tMs`, the RMS envelope `rmsSmooth` and the seven named-band
envelopes (their coefficients `1 - exp(-dt/τ)` and `1 - 0.001^(dt·rate)`
vanish) — while the per-call decay fields (`onsetDecay`, `bandPeaks`, the
onset channels, and `bandValues` through the adaptive bin smoothing) may
change even when the inputs are identical to the previous call. -/
theorem claim3_dt_zero_freezes_time_fields (s : AnalyzerState) (inp : AnalyzeInput)
    (h : inp.dt = 0) :
    (analyzeState s inp).tMs = s.tMs ∧
    (analyzeState s inp).rmsSmooth = s.rmsSmooth ∧
    (analyzeState s inp).smoothSubBass = s.smoothSubBass ∧
    (analyzeState s inp).smoothBass = s.smoothBass ∧
    (analyzeState s inp).smoothLowMid = s.smoothLowMid ∧
    (analyzeState s inp).smoothMid = s.smoothMid ∧
    (analyzeState s inp).smoothHighMid = s.smoothHighMid ∧
    (analyzeState s inp).smoothHigh = s.smoothHigh ∧
    (analyzeState s inp).smoothBrilliance = s.smoothBrilliance := by
  have hco : ∀ r : ℝ, (0.001 : ℝ) ^ (inp.dt * r) = 1 := by
    intro r
    rw [h, zero_mul, Real.rpow_zero]
  have henv : ∀ current target attack release : ℝ, attack = 0 → release = 0 →
      updateEnv current target attack release = current := by
    intro current target attack release ha hr
    rw [updateEnv, ha, hr]
    split_ifs <;> ring
  refine ⟨?_, ?_, ?_, ?_, ?_, ?_, ?_, ?_, ?_⟩
  · show aNow s inp = s.tMs
    rw [aNow, h]
    ring
  · show aRmsSmooth s inp = s.rmsSmooth
    rw [aRmsSmooth, h]
    split_ifs <;> · norm_num
  · show aSmoothSubBass s inp = s.smoothSubBass
    rw [aSmoothSubBass]
    exact henv _ _ _ _ (by rw [aFastAttack, hco]; ring) (by rw [aSlowRelease, hco]; ring)
  · show aSmoothBass s inp = s.smoothBass
    rw [aSmoothBass]
    exact henv _ _ _ _ (by rw [aFastAttack, hco]; ring) (by rw [aSlowRelease, hco]; ring)
  · show aSmoothLowMid s inp = s.smoothLowMid
    rw [aSmoothLowMid]
    exact henv _ _ _ _ (by rw [aMedAttack, hco]; ring) (by rw [aMedRelease, hco]; ring)
  · show aSmoothMid s inp = s.smoothMid
    rw [aSmoothMid]
    exact henv _ _ _ _ (by rw [aMedAttack, hco]; ring) (by rw [aMedRelease, hco]; ring)
  · show aSmoothHighMid s inp = s.smoothHighMid
    rw [aSmoothHighMid]
    exact henv _ _ _ _ (by rw [aMedAttack, hco]; ring) (by rw [aMedRelease, hco]; ring)
  · show aSmoothHigh s inp = s.smoothHigh
    rw [aSmoothHigh]
    exact henv _ _ _ _ (by rw [aFastAttack, hco]; ring) (by rw [aMedRelease, hco]; ring)
  · show aSmoothBrilliance s inp = s.smoothBrilliance
    rw [aSmoothBrilliance]
    exact henv _ _ _ _ (by rw [aFastAttack, hco]; ring) (by rw [aMedRelease, hco]; ring)

/-- Witness for C3 (amended) at the fresh analyzer and an empty zero-dt
frame. -/
theorem claim3_dt_zero_freezes_time_fields_witness :
    zeroDtInput.dt = 0 ∧
    ((analyzeState analyzerInit zeroDtInput).tMs = analyzerInit.tMs ∧
     (analyzeState analyzerInit zeroDtInput).rmsSmooth = analyzerInit.rmsSmooth ∧
     (analyzeState analyzerInit zeroDtInput).smoothSubBass = analyzerInit.smoothSubBass ∧
     (analyzeState analyzerInit zeroDtInput).smoothBass = analyzerInit.smoothBass ∧
     (analyzeState analyzerInit zeroDtInput).smoothLowMid = analyzerInit.smoothLowMid ∧
     (analyzeState analyzerInit zeroDtInput).smoothMid = analyzerInit.smoothMid ∧
     (analyzeState analyzerInit zeroDtInput).smoothHighMid = analyzerInit.smoothHighMid ∧
     (analyzeState analyzerInit zeroDtInput).smoothHigh = analyzerInit.smoothHigh ∧
     (analyzeState analyzerInit zeroDtInput).smoothBrilliance = analyzerInit.smoothBrilliance) :=
  ⟨rfl, claim3_dt_zero_freezes_time_fields analyzerInit zeroDtInput rfl⟩

end GR
